import Mathlib

/-!
# Verification of the `network` package of `simple_platformer`

A shallow embedding of the peer-to-peer state-transport core
(`internal/network/network.go`): the snapshot data model, the `peer`
transport pipeline (bounded outbound queue with drop-oldest sends, the
latest-inbound cache, the sticky first error, idempotent close), and the
`Manager` facade (`Send`, `LatestState`, `Err`, `Close`, `acceptOnce`).

Scalars that are `float64` in Go are abstracted to a type parameter `F`:
every claim checked here is about structure, control flow and exact value
preservation, never about floating-point arithmetic, so the embedding
carries the scalar values opaquely.

Concurrency is embedded by making the nondeterminism explicit: the
`select` statements of `peer.send` take the runtime's case choice as a
parameter (`SelChoice`), and the writer goroutine's concurrent draining of
the outbound channel between the three `select`s is a pair of drain
counts.  A `send` on a closed Go channel is "ready" and panics when the
runtime selects it; the embedding returns `SendOutcome.crash` for that
path.
-/

namespace Platformer

/-- Model of Go `error` values as they matter to this package:
`net.ErrClosed` (benign "already closed"), `io.EOF` (clean stream end),
and any other error, tagged by a code.  `errors.Is e net.ErrClosed` is
modelled as `e = errClosed`, `errors.Is e io.EOF` as `e = eofErr`. -/
inductive GoErr where
  | errClosed
  | eofErr
  | other (code : Nat)
deriving DecidableEq

/-- `PlayerState` (network.go lines 311-317): one player's kinematic state. -/
structure PlayerState (F : Type) where
  x : F
  y : F
  velocityX : F
  velocityY : F
  onGround : Bool
  facingRight : Bool
deriving DecidableEq

/-- `BulletState` (network.go lines 320-324): one live projectile. -/
structure BulletState (F : Type) where
  x : F
  y : F
  velocityX : F
deriving DecidableEq

/-- `StateMessage` (network.go lines 327-330): one snapshot — a player state
plus the ordered bullet list.  Go's nil slice and empty slice both embed to
`[]`. -/
structure StateMessage (F : Type) where
  player : PlayerState F
  bullets : List (BulletState F)
deriving DecidableEq

/-- The Go zero value of `PlayerState`. -/
def PlayerState.zero (F : Type) [Zero F] : PlayerState F :=
  ⟨0, 0, 0, 0, false, false⟩

/-- The Go zero value of `StateMessage` (zero player, nil bullet slice). -/
def StateMessage.zero (F : Type) [Zero F] : StateMessage F :=
  ⟨PlayerState.zero F, []⟩

/-- `defaultSendBufferSize` (network.go line 304): capacity of the outbound
channel `sendCh`. -/
def defaultSendBufferSize : Nat := 8

/-- Model of `net.Conn` as the `peer` uses it at state level: the only
observable retained is the error its `Close` returns (`none` = nil). -/
structure ConnModel where
  closeErr : Option GoErr
deriving DecidableEq

/-- Model of `net.Listener` at state level: the error its `Close` returns. -/
structure ListenerModel where
  closeErr : Option GoErr
deriving DecidableEq

/-- The `peer` struct (network.go lines 448-460).  `queue` is the buffered
contents of `sendCh` (capacity `defaultSendBufferSize`), `sendChClosed`
records `close(p.sendCh)` having run, `closedCh` records `close(p.closed)`,
`latest`/`hasData` the inbound cache, `err` the sticky error, `connCloseErr`
what `p.conn.Close()` would return, and `closeOnceDone` the state of the
`closeFn sync.Once`. -/
structure peer (F : Type) where
  queue : List (StateMessage F)
  sendChClosed : Bool
  closedCh : Bool
  latest : StateMessage F
  hasData : Bool
  err : Option GoErr
  connCloseErr : Option GoErr
  closeOnceDone : Bool
deriving DecidableEq

/-- `newPeer` (network.go lines 462-473): empty queue, open channels, no
cached snapshot, no error. -/
def newPeer (F : Type) [Zero F] (connCloseErr : Option GoErr) : peer F :=
  ⟨[], false, false, StateMessage.zero F, false, none, connCloseErr, false⟩

/-- `peer.getErr` (network.go lines 553-557): read the sticky error. -/
def peer.getErr {F : Type} (p : peer F) : Option GoErr :=
  p.err

/-- `peer.setErr` (network.go lines 559-569): record `e` only if it is
non-nil and no error has been recorded yet. -/
def peer.setErr {F : Type} (p : peer F) (e : Option GoErr) : peer F :=
  match e with
  | none => p
  | some _ => if p.err = none then { p with err := e } else p

/-- `peer.close` (network.go lines 571-581): under `closeFn sync.Once`,
close the `closed` channel, close `sendCh`, and close the connection,
returning the connection's close error; later calls do nothing and return
nil. -/
def peer.close {F : Type} (p : peer F) : peer F × Option GoErr :=
  if p.closeOnceDone then (p, none)
  else ({ p with closeOnceDone := true, closedCh := true, sendChClosed := true },
        p.connCloseErr)

/-- `peer.latestState` (network.go lines 542-551): non-blocking cache read. -/
def peer.latestState {F : Type} [Zero F] (p : peer F) : StateMessage F × Bool :=
  if p.hasData then (p.latest, true) else (StateMessage.zero F, false)

/-- One iteration of `peer.readLoop`'s decode (network.go lines 475-495),
driven by the decoder's outcome for the next wire record. -/
inductive DecodeOutcome (F : Type) where
  | decoded (msg : StateMessage F)
  | decodeErr (e : GoErr)

/-- One step of `peer.readLoop` (network.go lines 475-495): a decoded
message overwrites the cache wholesale; a decode error is recorded (a clean
stream end as the `io.EOF` sentinel, anything else as itself) and the peer
is closed. -/
def peer.readStep {F : Type} (p : peer F) (out : DecodeOutcome F) : peer F :=
  match out with
  | .decoded msg => { p with latest := msg, hasData := true }
  | .decodeErr e =>
      let p1 := if e = GoErr.eofErr
        then peer.setErr p (some GoErr.eofErr)
        else peer.setErr p (some e)
      (peer.close p1).1

/-- The choice the Go runtime makes at one `select` of `peer.send`:
the `<-p.closed` case, the `p.sendCh` case (send or receive, per select),
or the `default` case.  A choice is only meaningful when that case is
ready (resp. when no case is ready, for `default`); an unready choice
yields `SendOutcome.stuck`, an impossible schedule. -/
inductive SelChoice where
  | sClosed
  | sChan
  | sDefault
deriving DecidableEq

/-- The observable result of one completed `peer.send` call: the peer
afterwards, the returned error, and two ghost observables — how many
queued-but-untransmitted snapshots this call evicted, and whether the new
snapshot was enqueued. -/
structure SendRet (F : Type) where
  peerAfter : peer F
  ret : Option GoErr
  evicted : Nat
  enqueued : Bool
deriving DecidableEq

/-- Outcome of `peer.send` under one schedule: a normal return, a runtime
panic (`crash`, from the `p.sendCh <- state` case firing on a closed
channel), or `stuck` when the given schedule picks a case that is not
ready. -/
inductive SendOutcome (F : Type) where
  | ret (r : SendRet F)
  | crash
  | stuck
deriving DecidableEq

/-- Third `select` of `peer.send` (network.go lines 531-538): try to
enqueue the new snapshot, fall back to returning nil without enqueueing.
`q3` is the channel contents at this instant, `ev` the eviction count so
far. -/
def peer.sendFinish {F : Type} (p : peer F) (m : StateMessage F)
    (q3 : List (StateMessage F)) (ev : Nat) (c3 : SelChoice) : SendOutcome F :=
  match c3 with
  | .sClosed =>
      if p.closedCh then .ret ⟨{ p with queue := q3 }, p.getErr, ev, false⟩
      else .stuck
  | .sChan =>
      if p.sendChClosed then .crash
      else if q3.length < defaultSendBufferSize then
        .ret ⟨{ p with queue := q3 ++ [m] }, none, ev, true⟩
      else .stuck
  | .sDefault =>
      if p.closedCh ∨ p.sendChClosed ∨ q3.length < defaultSendBufferSize then .stuck
      else .ret ⟨{ p with queue := q3 }, none, ev, false⟩

/-- Second `select` of `peer.send` (network.go lines 525-530): drop one
currently-queued entry if there is one.  `q1` is the channel contents at
this instant; `d2` snapshots are drained by the writer goroutine before the
third `select` runs. -/
def peer.sendEvict {F : Type} (p : peer F) (m : StateMessage F)
    (q1 : List (StateMessage F)) (c2 c3 : SelChoice) (d2 : Nat) : SendOutcome F :=
  match c2 with
  | .sClosed =>
      if p.closedCh then .ret ⟨{ p with queue := q1 }, p.getErr, 0, false⟩
      else .stuck
  | .sChan =>
      match q1 with
      | [] =>
          if p.sendChClosed then peer.sendFinish p m (List.drop d2 []) 0 c3
          else .stuck
      | _ :: rest => peer.sendFinish p m (rest.drop d2) 1 c3
  | .sDefault =>
      if p.closedCh ∨ p.sendChClosed ∨ ¬q1.isEmpty then .stuck
      else peer.sendFinish p m (q1.drop d2) 0 c3

/-- `peer.send` (network.go lines 517-540) under an explicit schedule:
`c1 c2 c3` are the runtime's choices at the three `select`s, and `d1`,
`d2` the number of snapshots the writer goroutine drains from the channel
between them.  A Go `select` send case on a closed channel is ready and
panics when chosen (`crash`); a receive on the closed `p.closed` channel is
ready iff `close(p.closed)` has run. -/
def peer.send {F : Type} (p : peer F) (m : StateMessage F)
    (c1 c2 c3 : SelChoice) (d1 d2 : Nat) : SendOutcome F :=
  match c1 with
  | .sClosed =>
      if p.closedCh then .ret ⟨p, p.getErr, 0, false⟩
      else .stuck
  | .sChan =>
      if p.sendChClosed then .crash
      else if p.queue.length < defaultSendBufferSize then
        .ret ⟨{ p with queue := p.queue ++ [m] }, none, 0, true⟩
      else .stuck
  | .sDefault =>
      if p.closedCh ∨ p.sendChClosed ∨ p.queue.length < defaultSendBufferSize then .stuck
      else peer.sendEvict p m (p.queue.drop d1) c2 c3 d2

/-- Returned error of a completed `send`, `none` for `crash`/`stuck`. -/
def SendOutcome.retErr {F : Type} : SendOutcome F → Option GoErr
  | .ret r => r.ret
  | _ => none

/-- Eviction count of a completed `send`, `0` for `crash`/`stuck`. -/
def SendOutcome.evictedCount {F : Type} : SendOutcome F → Nat
  | .ret r => r.evicted
  | _ => 0

/-- Whether the outcome is a completed (returned) call. -/
def SendOutcome.isRet {F : Type} : SendOutcome F → Bool
  | .ret _ => true
  | _ => false

/-- Whether a completed `send` enqueued the new snapshot. -/
def SendOutcome.didEnqueue {F : Type} : SendOutcome F → Bool
  | .ret r => r.enqueued
  | _ => false

/-- The newest element of the outbound queue after a completed `send`. -/
def SendOutcome.lastQueued {F : Type} : SendOutcome F → Option (StateMessage F)
  | .ret r => r.peerAfter.queue.getLast?
  | _ => none

/-- The `Manager` struct (network.go lines 333-343).  `teardownRuns` is a
ghost counter of how many times the body of `closeOnce.Do` has actually
run. -/
structure Manager (F : Type) where
  peer : Option (peer F)
  listener : Option ListenerModel
  closeOnceDone : Bool
  closedCh : Bool
  err : Option GoErr
  teardownRuns : Nat
deriving DecidableEq

/-- `newManager` (network.go lines 345-350). -/
def newManager {F : Type} (initialPeer : Option (peer F)) : Manager F :=
  ⟨initialPeer, none, false, false, none, 0⟩

/-- `Manager.setErr` (network.go lines 635-645): record `e` only if it is
non-nil and no error has been recorded yet. -/
def Manager.setErr {F : Type} (s : Manager F) (e : Option GoErr) : Manager F :=
  match e with
  | none => s
  | some _ => if s.err = none then { s with err := e } else s

/-- `Manager.getErr` (network.go lines 647-651). -/
def Manager.getErr {F : Type} (s : Manager F) : Option GoErr :=
  s.err

/-- Outcome of `Manager.Send`: the manager afterwards and the returned
error, or the propagated panic/impossible-schedule outcome of the
underlying `peer.send`.  A `nil` receiver stays `none`. -/
inductive MgrSendOutcome (F : Type) where
  | ret (s : Option (Manager F)) (e : Option GoErr)
  | crash
  | stuck
deriving DecidableEq

/-- `Manager.Send` (network.go lines 385-393): nil receiver and no bound
peer both succeed as no-ops; otherwise the call is routed to `peer.send`
under the given schedule. -/
def Manager.Send {F : Type} (m : Option (Manager F)) (msg : StateMessage F)
    (c1 c2 c3 : SelChoice) (d1 d2 : Nat) : MgrSendOutcome F :=
  match m with
  | none => .ret none none
  | some s =>
    match s.peer with
    | none => .ret (some s) none
    | some p =>
      match peer.send p msg c1 c2 c3 d1 d2 with
      | .ret r => .ret (some { s with peer := some r.peerAfter }) r.ret
      | .crash => .crash
      | .stuck => .stuck

/-- `Manager.LatestState` (network.go lines 396-404): nil receiver and no
bound peer both yield the zero snapshot and `false`. -/
def Manager.LatestState {F : Type} [Zero F] (m : Option (Manager F)) :
    StateMessage F × Bool :=
  match m with
  | none => (StateMessage.zero F, false)
  | some s =>
    match s.peer with
    | none => (StateMessage.zero F, false)
    | some p => peer.latestState p

/-- `Manager.Err` (network.go lines 407-418): the Manager's own sticky
error first, else the bound peer's, else nil. -/
def Manager.Err {F : Type} (m : Option (Manager F)) : Option GoErr :=
  match m with
  | none => none
  | some s =>
    match s.err with
    | some e => some e
    | none =>
      match s.peer with
      | none => none
      | some p => p.getErr

/-- `Manager.Close` (network.go lines 421-446): under `closeOnce`, close
the `closed` channel, swap out and close the listener (suppressing
`net.ErrClosed`), then close the bound peer, keeping its error only if no
listener error was kept and it is not `net.ErrClosed`.  Later calls (and a
nil receiver) do nothing and return nil. -/
def Manager.Close {F : Type} (m : Option (Manager F)) :
    Option (Manager F) × Option GoErr :=
  match m with
  | none => (none, none)
  | some s =>
    if s.closeOnceDone then (some s, none)
    else
      let s1 : Manager F :=
        { s with closeOnceDone := true, closedCh := true, listener := none,
                 teardownRuns := s.teardownRuns + 1 }
      let r1 : Option GoErr :=
        match s.listener with
        | none => none
        | some L =>
          match L.closeErr with
          | none => none
          | some e => if e = GoErr.errClosed then none else some e
      match s1.peer with
      | none => (some s1, r1)
      | some p =>
        let pc := peer.close p
        let r : Option GoErr :=
          match pc.2 with
          | none => r1
          | some e =>
            if r1 = none ∧ ¬e = GoErr.errClosed then some e else r1
        (some { s1 with peer := some pc.1 }, r)

/-- Outcome of the single `listener.Accept()` call in `acceptOnce`. -/
inductive AcceptOutcome where
  | acceptConn (c : ConnModel)
  | acceptErr (e : GoErr)

/-- `Manager.acceptOnce` (network.go lines 583-613), driven by the outcome
of its single accept attempt.  The returned `Bool` is true iff an accepted
connection was closed immediately, unused.  An accept error other than
`net.ErrClosed` becomes the Manager's sticky error; an accepted connection
becomes the bound peer only if the Manager is not closed and has no peer
yet.  (The deferred `listener.Close()` releases the socket but does not
clear the `listener` field.) -/
def Manager.acceptOnce {F : Type} [Zero F] (s : Manager F) (out : AcceptOutcome) :
    Manager F × Bool :=
  match s.listener with
  | none => (s, false)
  | some _ =>
    match out with
    | .acceptErr e =>
        if e = GoErr.errClosed then (s, false)
        else (Manager.setErr s (some e), false)
    | .acceptConn c =>
        if s.closedCh then (s, true)
        else
          match s.peer with
          | some _ => (s, true)
          | none => ({ s with peer := some (newPeer F c.closeErr) }, false)

/-!
## The wire format

`peer.writeLoop` serializes each `StateMessage` with `encoding/json` and
`peer.readLoop` decodes one complete record at a time.  The embedding
models the self-delimiting wire record as a JSON value tree: Go's
reflection-based marshalling maps a struct to an object keyed by the
exported field names and a slice to an array, and the decoder inverts
that by field-name lookup.  Number leaves carry the scalar `F` opaquely
(Go's `strconv` guarantees exact `float64` round-trips for the finite
values `json` accepts). -/

/-- A JSON value: number, boolean, array, or object. -/
inductive JVal (F : Type) where
  | num (x : F)
  | bool (b : Bool)
  | arr (elems : List (JVal F))
  | obj (fields : List (String × JVal F))

/-- First field of `fields` named `k`, as `encoding/json` resolves an
exported struct field on decode. -/
def jLookup {F : Type} : List (String × JVal F) → String → Option (JVal F)
  | [], _ => none
  | (k0, v) :: rest, k => if k0 = k then some v else jLookup rest k

/-- Marshal one `PlayerState`: an object keyed by the Go field names. -/
def encodePlayer {F : Type} (p : PlayerState F) : JVal F :=
  .obj [("X", .num p.x), ("Y", .num p.y),
        ("VelocityX", .num p.velocityX), ("VelocityY", .num p.velocityY),
        ("OnGround", .bool p.onGround), ("FacingRight", .bool p.facingRight)]

/-- Marshal one `BulletState`. -/
def encodeBullet {F : Type} (b : BulletState F) : JVal F :=
  .obj [("X", .num b.x), ("Y", .num b.y), ("VelocityX", .num b.velocityX)]

/-- Marshal one `StateMessage` as `peer.writeLoop`'s encoder emits it:
player object plus bullet array, in the sender's order. -/
def encodeStateMessage {F : Type} (m : StateMessage F) : JVal F :=
  .obj [("Player", encodePlayer m.player),
        ("Bullets", .arr (m.bullets.map encodeBullet))]

/-- Unmarshal one `PlayerState`: look up each exported field and require
its JSON type to match. -/
def decodePlayer {F : Type} (j : JVal F) : Option (PlayerState F) :=
  match j with
  | .obj fs =>
    match jLookup fs "X", jLookup fs "Y", jLookup fs "VelocityX",
          jLookup fs "VelocityY", jLookup fs "OnGround", jLookup fs "FacingRight" with
    | some (.num x), some (.num y), some (.num vx), some (.num vy),
      some (.bool og), some (.bool fr) => some ⟨x, y, vx, vy, og, fr⟩
    | _, _, _, _, _, _ => none
  | _ => none

/-- Unmarshal one `BulletState`. -/
def decodeBullet {F : Type} (j : JVal F) : Option (BulletState F) :=
  match j with
  | .obj fs =>
    match jLookup fs "X", jLookup fs "Y", jLookup fs "VelocityX" with
    | some (.num x), some (.num y), some (.num vx) => some ⟨x, y, vx⟩
    | _, _, _ => none
  | _ => none

/-- Unmarshal a bullet array element by element, in order. -/
def decodeBullets {F : Type} : List (JVal F) → Option (List (BulletState F))
  | [] => some []
  | j :: rest =>
    match decodeBullet j, decodeBullets rest with
    | some b, some bs => some (b :: bs)
    | _, _ => none

/-- Unmarshal one `StateMessage` as `peer.readLoop`'s decoder rebuilds it. -/
def decodeStateMessage {F : Type} (j : JVal F) : Option (StateMessage F) :=
  match j with
  | .obj fs =>
    match jLookup fs "Player", jLookup fs "Bullets" with
    | some jp, some (.arr jbs) =>
      match decodePlayer jp, decodeBullets jbs with
      | some p, some bs => some ⟨p, bs⟩
      | _, _ => none
    | _, _ => none
  | _ => none

/-!
## Spec-side definitions

Written from the specification's words, to state the claims against the
embedded code. -/

/-- The first fault in a sequence of recorded values: nils are skipped. -/
def firstFault (es : List (Option GoErr)) : Option GoErr :=
  (es.filterMap id).head?

/-- The first non-benign error in a sequence of close results: nils and
`net.ErrClosed` ("already closed") are skipped. -/
def firstNonBenign (es : List (Option GoErr)) : Option GoErr :=
  ((es.filterMap id).filter (fun e => !(e == GoErr.errClosed))).head?

/-- The error the Manager's held listener would report from its `Close`. -/
def listenerCloseErr {F : Type} (s : Manager F) : Option GoErr :=
  match s.listener with
  | none => none
  | some L => L.closeErr

/-- The error the bound peer's first `close` would report (nil if no peer
is bound or the peer already closed itself). -/
def peerConnErr {F : Type} (s : Manager F) : Option GoErr :=
  match s.peer with
  | none => none
  | some p => if p.closeOnceDone then none else p.connCloseErr

/-- Ghost teardown counter of a possibly-nil Manager. -/
def teardownRunsOf {F : Type} (m : Option (Manager F)) : Nat :=
  match m with
  | none => 0
  | some s => s.teardownRuns

/-!
## Concrete instances

Used by the witness and counterexample theorems, with the scalar type
instantiated to `Int`. -/

/-- A sample snapshot with a non-empty bullet list. -/
def msgSample : StateMessage Int :=
  ⟨⟨1, 2, 3, -4, true, false⟩, [⟨5, 6, 7⟩, ⟨8, 9, -10⟩]⟩

/-- A peer closed after a transport fault: both channels closed, sticky
error recorded. -/
def closedPeerInt : peer Int :=
  ⟨[], true, true, StateMessage.zero Int, false, some (GoErr.other 1), none, true⟩

/-- A fresh open peer. -/
def openPeerInt : peer Int :=
  newPeer Int none

/-- An open peer whose outbound queue is full. -/
def fullPeerInt : peer Int :=
  { openPeerInt with queue := List.replicate defaultSendBufferSize (StateMessage.zero Int) }

/-- A host-side Manager still awaiting its client: listener held, no peer. -/
def mgrAwaitingInt : Manager Int :=
  { newManager none with listener := some ⟨none⟩ }

/-- A Manager already bound to a peer (for the accept-race instance). -/
def mgrBoundInt : Manager Int :=
  { newManager (some openPeerInt) with listener := some ⟨none⟩ }

/-- A not-yet-closed Manager whose listener close would report
`net.ErrClosed` and whose bound peer's connection close would report a
real fault. -/
def mgrToCloseInt : Manager Int :=
  { newManager (some { openPeerInt with connCloseErr := some (GoErr.other 5) }) with
      listener := some ⟨some GoErr.errClosed⟩ }

/-!
## Helper lemmas -/

/-- One `setErr` keeps an already-recorded error and records a new one. -/
theorem peer_setErr_err {F : Type} (p : peer F) (e : Option GoErr) :
    (peer.setErr p e).err = p.err.or e := by
  cases e with
  | none => simp [peer.setErr]
  | some a =>
    by_cases h : p.err = none
    · simp [peer.setErr, h]
    · rcases he : p.err with _ | b
      · exact absurd he h
      · simp [peer.setErr, he]

/-- `Manager.setErr` has the same sticky update on its error field. -/
theorem manager_setErr_err {F : Type} (s : Manager F) (e : Option GoErr) :
    (Manager.setErr s e).err = s.err.or e := by
  cases e with
  | none => simp [Manager.setErr]
  | some a =>
    by_cases h : s.err = none
    · simp [Manager.setErr, h]
    · rcases he : s.err with _ | b
      · exact absurd he h
      · simp [Manager.setErr, he]

/-- `firstFault` peels one recorded value off the front. -/
theorem firstFault_cons (e : Option GoErr) (es : List (Option GoErr)) :
    firstFault (e :: es) = e.or (firstFault es) := by
  cases e <;> simp [firstFault]

/-- Folding `peer.setErr` over a list of recorded values leaves the first
fault. -/
theorem peer_foldl_setErr {F : Type} (es : List (Option GoErr)) (p : peer F) :
    (es.foldl peer.setErr p).err = p.err.or (firstFault es) := by
  induction es generalizing p with
  | nil => simp [firstFault]
  | cons e es ih =>
    simp only [List.foldl_cons, ih, peer_setErr_err, firstFault_cons, Option.or_assoc]

/-- Folding `Manager.setErr` over a list of recorded values leaves the
first fault. -/
theorem manager_foldl_setErr {F : Type} (es : List (Option GoErr)) (s : Manager F) :
    (es.foldl Manager.setErr s).err = s.err.or (firstFault es) := by
  induction es generalizing s with
  | nil => simp [firstFault]
  | cons e es ih =>
    simp only [List.foldl_cons, ih, manager_setErr_err, firstFault_cons, Option.or_assoc]

/-- Round-trip of one `PlayerState` through the wire model. -/
theorem decodePlayer_encodePlayer {F : Type} (p : PlayerState F) :
    decodePlayer (encodePlayer p) = some p := by
  cases p
  simp [encodePlayer, decodePlayer, jLookup]

/-- Round-trip of one `BulletState` through the wire model. -/
theorem decodeBullet_encodeBullet {F : Type} (b : BulletState F) :
    decodeBullet (encodeBullet b) = some b := by
  cases b
  simp [encodeBullet, decodeBullet, jLookup]

/-- Round-trip of a bullet list, preserving length and order. -/
theorem decodeBullets_encode {F : Type} (bs : List (BulletState F)) :
    decodeBullets (bs.map encodeBullet) = some bs := by
  induction bs with
  | nil => rfl
  | cons b bs ih => simp [decodeBullets, decodeBullet_encodeBullet, ih]

/-- On an open peer, the third `select` of `send` never crashes, returns
nil, keeps the eviction count, and — when the queue has room, which the
callers establish — enqueues the new snapshot as the newest element. -/
theorem sendFinish_open {F : Type} (p : peer F) (m : StateMessage F)
    (q3 : List (StateMessage F)) (ev : Nat) (c3 : SelChoice)
    (hc : p.closedCh = false) (hs : p.sendChClosed = false) (hev : ev ≤ 1)
    (h3 : q3.length < defaultSendBufferSize) :
    peer.sendFinish p m q3 ev c3 ≠ SendOutcome.crash ∧
    (peer.sendFinish p m q3 ev c3).retErr = none ∧
    (peer.sendFinish p m q3 ev c3).evictedCount ≤ 1 ∧
    ((peer.sendFinish p m q3 ev c3).isRet = true →
      (peer.sendFinish p m q3 ev c3).didEnqueue = true ∧
      (peer.sendFinish p m q3 ev c3).lastQueued = some m) := by
  cases c3 with
  | sClosed =>
    simp [peer.sendFinish, hc, SendOutcome.retErr, SendOutcome.evictedCount,
          SendOutcome.isRet]
  | sChan =>
    simp [peer.sendFinish, hs, h3, hev, SendOutcome.retErr, SendOutcome.evictedCount,
          SendOutcome.isRet, SendOutcome.didEnqueue, SendOutcome.lastQueued,
          List.getLast?_concat]
  | sDefault =>
    simp [peer.sendFinish, h3, SendOutcome.retErr, SendOutcome.evictedCount,
          SendOutcome.isRet]

/-- On an open peer, the second `select` of `send` (the eviction step)
never crashes, returns nil, evicts at most one queued snapshot, and every
completed run enqueues the new snapshot last. -/
theorem sendEvict_open {F : Type} (p : peer F) (m : StateMessage F)
    (q1 : List (StateMessage F)) (c2 c3 : SelChoice) (d2 : Nat)
    (hc : p.closedCh = false) (hs : p.sendChClosed = false)
    (hq1 : q1.length ≤ defaultSendBufferSize) :
    peer.sendEvict p m q1 c2 c3 d2 ≠ SendOutcome.crash ∧
    (peer.sendEvict p m q1 c2 c3 d2).retErr = none ∧
    (peer.sendEvict p m q1 c2 c3 d2).evictedCount ≤ 1 ∧
    ((peer.sendEvict p m q1 c2 c3 d2).isRet = true →
      (peer.sendEvict p m q1 c2 c3 d2).didEnqueue = true ∧
      (peer.sendEvict p m q1 c2 c3 d2).lastQueued = some m) := by
  cases c2 with
  | sClosed =>
    simp [peer.sendEvict, hc, SendOutcome.retErr, SendOutcome.evictedCount,
          SendOutcome.isRet]
  | sChan =>
    cases q1 with
    | nil =>
      simp [peer.sendEvict, hs, SendOutcome.retErr, SendOutcome.evictedCount,
            SendOutcome.isRet]
    | cons a rest =>
      have hlen : (rest.drop d2).length < defaultSendBufferSize := by
        have := List.length_drop d2 rest
        simp only [List.length_cons, defaultSendBufferSize] at hq1 ⊢
        omega
      simpa [peer.sendEvict] using
        sendFinish_open p m (rest.drop d2) 1 c3 hc hs (le_refl 1) hlen
  | sDefault =>
    by_cases hq : q1.isEmpty
    · rcases q1 with _ | ⟨a, rest⟩
      · have hlen : (List.drop d2 ([] : List (StateMessage F))).length
            < defaultSendBufferSize := by
          simp [defaultSendBufferSize]
        simpa [peer.sendEvict, hc, hs] using
          sendFinish_open p m (List.drop d2 []) 0 c3 hc hs (Nat.zero_le 1) hlen
      · simp at hq
    · simp [peer.sendEvict, hc, hs, hq, SendOutcome.retErr, SendOutcome.evictedCount,
            SendOutcome.isRet]

/-- On an open peer whose queue respects the channel capacity, `send`
never crashes, returns nil under every schedule, evicts at most one
queued snapshot, and every completed run leaves the new snapshot as the
newest queued element. -/
theorem send_open_ok {F : Type} (p : peer F) (m : StateMessage F)
    (c1 c2 c3 : SelChoice) (d1 d2 : Nat)
    (hc : p.closedCh = false) (hs : p.sendChClosed = false)
    (hq : p.queue.length ≤ defaultSendBufferSize) :
    peer.send p m c1 c2 c3 d1 d2 ≠ SendOutcome.crash ∧
    (peer.send p m c1 c2 c3 d1 d2).retErr = none ∧
    (peer.send p m c1 c2 c3 d1 d2).evictedCount ≤ 1 ∧
    ((peer.send p m c1 c2 c3 d1 d2).isRet = true →
      (peer.send p m c1 c2 c3 d1 d2).didEnqueue = true ∧
      (peer.send p m c1 c2 c3 d1 d2).lastQueued = some m) := by
  cases c1 with
  | sClosed =>
    simp [peer.send, hc, SendOutcome.retErr, SendOutcome.evictedCount,
          SendOutcome.isRet]
  | sChan =>
    by_cases hlen : p.queue.length < defaultSendBufferSize
    · simp [peer.send, hs, hlen, SendOutcome.retErr, SendOutcome.evictedCount,
            SendOutcome.isRet, SendOutcome.didEnqueue, SendOutcome.lastQueued,
            List.getLast?_concat]
    · simp [peer.send, hs, hlen, SendOutcome.retErr, SendOutcome.evictedCount,
            SendOutcome.isRet]
  | sDefault =>
    by_cases hlen : p.queue.length < defaultSendBufferSize
    · simp [peer.send, hc, hs, hlen, SendOutcome.retErr, SendOutcome.evictedCount,
            SendOutcome.isRet]
    · have hq1 : (p.queue.drop d1).length ≤ defaultSendBufferSize := by
        have := List.length_drop d1 p.queue
        omega
      simpa [peer.send, hc, hs, hlen] using
        sendEvict_open p m (p.queue.drop d1) c2 c3 d2 hc hs hq1

/-- A Manager whose `closeOnce` already fired: `Close` is a no-op
returning nil. -/
theorem close_after_done {F : Type} (t : Manager F) (ht : t.closeOnceDone = true) :
    Manager.Close (some t) = (some t, none) := by
  simp [Manager.Close, ht]

/-- The error reported by the first `Close` is the first non-benign error
among the listener's close result and the bound peer's connection close
result. -/
theorem close_reported_error {F : Type} (s : Manager F)
    (h : s.closeOnceDone = false) :
    (Manager.Close (some s)).2 = firstNonBenign [listenerCloseErr s, peerConnErr s] := by
  rcases s with ⟨pe, li, done, cch, er, tr⟩
  simp only at h
  subst h
  rcases pe with _ | p <;> rcases li with _ | ⟨lce⟩
  · simp [Manager.Close, firstNonBenign, listenerCloseErr, peerConnErr]
  · rcases lce with _ | e
    · simp [Manager.Close, firstNonBenign, listenerCloseErr, peerConnErr]
    · by_cases he : e = GoErr.errClosed <;>
        simp [Manager.Close, firstNonBenign, listenerCloseErr, peerConnErr, he]
  · by_cases hp : p.closeOnceDone
    · simp [Manager.Close, peer.close, firstNonBenign, listenerCloseErr, peerConnErr, hp]
    · rcases hpc : p.connCloseErr with _ | e
      · simp [Manager.Close, peer.close, firstNonBenign, listenerCloseErr, peerConnErr,
              hp, hpc]
      · by_cases he : e = GoErr.errClosed <;>
          simp [Manager.Close, peer.close, firstNonBenign, listenerCloseErr, peerConnErr,
                hp, hpc, he]
  · by_cases hp : p.closeOnceDone
    · rcases lce with _ | e1
      · simp [Manager.Close, peer.close, firstNonBenign, listenerCloseErr, peerConnErr, hp]
      · by_cases he1 : e1 = GoErr.errClosed <;>
          simp [Manager.Close, peer.close, firstNonBenign, listenerCloseErr, peerConnErr,
                hp, he1]
    · rcases lce with _ | e1
      · rcases hpc : p.connCloseErr with _ | e2
        · simp [Manager.Close, peer.close, firstNonBenign, listenerCloseErr, peerConnErr,
                hp, hpc]
        · by_cases he2 : e2 = GoErr.errClosed <;>
            simp [Manager.Close, peer.close, firstNonBenign, listenerCloseErr, peerConnErr,
                  hp, hpc, he2]
      · rcases hpc : p.connCloseErr with _ | e2
        · by_cases he1 : e1 = GoErr.errClosed <;>
            simp [Manager.Close, peer.close, firstNonBenign, listenerCloseErr, peerConnErr,
                  hp, hpc, he1]
        · by_cases he1 : e1 = GoErr.errClosed <;> by_cases he2 : e2 = GoErr.errClosed <;>
            simp [Manager.Close, peer.close, firstNonBenign, listenerCloseErr, peerConnErr,
                  hp, hpc, he1, he2]

/-- The first `Close` marks the `closeOnce` fired and bumps the ghost
teardown counter exactly once. -/
theorem close_state_after {F : Type} (s : Manager F)
    (h : s.closeOnceDone = false) :
    ∃ t : Manager F, (Manager.Close (some s)).1 = some t ∧
      t.closeOnceDone = true ∧ t.teardownRuns = s.teardownRuns + 1 := by
  rcases s with ⟨pe, li, done, cch, er, tr⟩
  simp only at h
  subst h
  rcases pe with _ | p
  · have h1 : (Manager.Close (some (⟨none, li, false, cch, er, tr⟩ : Manager F))).1
        = some ⟨none, none, true, true, er, tr + 1⟩ := by
      simp [Manager.Close]
    exact ⟨_, h1, rfl, rfl⟩
  · by_cases hp : p.closeOnceDone
    · have h1 : (Manager.Close (some (⟨some p, li, false, cch, er, tr⟩ : Manager F))).1
          = some ⟨some p, none, true, true, er, tr + 1⟩ := by
        simp [Manager.Close, peer.close, hp]
      exact ⟨_, h1, rfl, rfl⟩
    · have h1 : (Manager.Close (some (⟨some p, li, false, cch, er, tr⟩ : Manager F))).1
          = some ⟨some ⟨p.queue, true, true, p.latest, p.hasData, p.err,
                        p.connCloseErr, true⟩,
                  none, true, true, er, tr + 1⟩ := by
        simp [Manager.Close, peer.close, hp]
      exact ⟨_, h1, rfl, rfl⟩

/-!
## The claims -/

/-- Claim C1: for every call to `peer.send` on an open (not closed) Peer
whose bounded outbound queue is full — and in fact under every queue
content within the channel capacity, every runtime `select` schedule and
every concurrent writer drain — at most one previously-queued,
not-yet-transmitted snapshot is evicted, the new snapshot is enqueued
whenever the call completes (and is then the newest queued element), and
the call returns success (nil) in every case. -/
theorem C1_send_overflow_drop_oldest {F : Type} (p : peer F) (m : StateMessage F)
    (c1 c2 c3 : SelChoice) (d1 d2 : Nat)
    (hc : p.closedCh = false) (hs : p.sendChClosed = false)
    (hq : p.queue.length ≤ defaultSendBufferSize) :
    peer.send p m c1 c2 c3 d1 d2 ≠ SendOutcome.crash ∧
    (peer.send p m c1 c2 c3 d1 d2).retErr = none ∧
    (peer.send p m c1 c2 c3 d1 d2).evictedCount ≤ 1 ∧
    ((peer.send p m c1 c2 c3 d1 d2).isRet = true →
      (peer.send p m c1 c2 c3 d1 d2).didEnqueue = true ∧
      (peer.send p m c1 c2 c3 d1 d2).lastQueued = some m) :=
  send_open_ok p m c1 c2 c3 d1 d2 hc hs hq

/-- Witness for C1 at an open peer with a full queue, under the schedule
that takes the overflow path with no concurrent drain. -/
theorem C1_send_overflow_drop_oldest_witness :
    fullPeerInt.closedCh = false ∧ fullPeerInt.sendChClosed = false ∧
    fullPeerInt.queue.length ≤ defaultSendBufferSize ∧
    ((peer.send fullPeerInt msgSample SelChoice.sDefault SelChoice.sChan
        SelChoice.sChan 0 0).retErr = none ∧
     (peer.send fullPeerInt msgSample SelChoice.sDefault SelChoice.sChan
        SelChoice.sChan 0 0).evictedCount ≤ 1 ∧
     (peer.send fullPeerInt msgSample SelChoice.sDefault SelChoice.sChan
        SelChoice.sChan 0 0).lastQueued = some msgSample) := by
  have h := C1_send_overflow_drop_oldest fullPeerInt msgSample SelChoice.sDefault
    SelChoice.sChan SelChoice.sChan 0 0 rfl rfl (by decide)
  exact ⟨rfl, rfl, by decide, h.2.1, h.2.2.1, (h.2.2.2 (by decide)).2⟩

/-- Claim C2, counterexample: `peer.send` on a Peer closed by a transport
fault returns the non-nil sticky error (network.go line 520
`return p.getErr()`), so in-session failures do surface through `send`'s
return value. -/
theorem C2_send_error_counterexample :
    (peer.send closedPeerInt msgSample SelChoice.sClosed SelChoice.sDefault
       SelChoice.sDefault 0 0).retErr = some (GoErr.other 1) ∧
    (peer.send closedPeerInt msgSample SelChoice.sClosed SelChoice.sDefault
       SelChoice.sDefault 0 0).retErr ≠ none := by
  constructor
  · rfl
  · intro h
    simp [peer.send, closedPeerInt, peer.getErr, SendOutcome.retErr] at h

/-- Claim C2 as amended: `peer.send` never returns a non-nil error while
the Peer is open, and `Manager.Send` with no bound Peer returns nil; once
the Peer is closed, `send` returns the Peer's sticky error (non-nil after
a transport fault), so in-session failures are observable both by polling
`error()` and through the return value of a post-closure `send`. -/
theorem C2_send_error_amended {F : Type} (p : peer F) (m : StateMessage F)
    (s : Manager F) (c1 c2 c3 : SelChoice) (d1 d2 : Nat) :
    (p.closedCh = false → p.sendChClosed = false →
      p.queue.length ≤ defaultSendBufferSize →
      peer.send p m c1 c2 c3 d1 d2 ≠ SendOutcome.crash ∧
      (peer.send p m c1 c2 c3 d1 d2).retErr = none) ∧
    (p.closedCh = true →
      peer.send p m SelChoice.sClosed c2 c3 d1 d2
        = SendOutcome.ret ⟨p, p.getErr, 0, false⟩) ∧
    (s.peer = none →
      Manager.Send (some s) m c1 c2 c3 d1 d2 = MgrSendOutcome.ret (some s) none) := by
  refine ⟨fun hc hs hq => ?_, fun hc => ?_, fun hp => ?_⟩
  · have h := send_open_ok p m c1 c2 c3 d1 d2 hc hs hq
    exact ⟨h.1, h.2.1⟩
  · simp [peer.send, hc]
  · simp [Manager.Send, hp]

/-- Witness for C2 as amended: an open peer's send returns nil, a closed
faulted peer's send returns its sticky error, and an unbound Manager's
Send returns nil. -/
theorem C2_send_error_amended_witness :
    ((peer.send openPeerInt msgSample SelChoice.sChan SelChoice.sDefault
        SelChoice.sDefault 0 0).retErr = none) ∧
    (peer.send closedPeerInt msgSample SelChoice.sClosed SelChoice.sDefault
        SelChoice.sDefault 0 0
      = SendOutcome.ret ⟨closedPeerInt, closedPeerInt.getErr, 0, false⟩) ∧
    (Manager.Send (some mgrAwaitingInt) msgSample SelChoice.sChan SelChoice.sDefault
        SelChoice.sDefault 0 0 = MgrSendOutcome.ret (some mgrAwaitingInt) none) :=
  ⟨((C2_send_error_amended openPeerInt msgSample mgrAwaitingInt SelChoice.sChan
      SelChoice.sDefault SelChoice.sDefault 0 0).1 rfl rfl (by decide)).2,
   (C2_send_error_amended closedPeerInt msgSample mgrAwaitingInt SelChoice.sChan
      SelChoice.sDefault SelChoice.sDefault 0 0).2.1 rfl,
   (C2_send_error_amended openPeerInt msgSample mgrAwaitingInt SelChoice.sChan
      SelChoice.sDefault SelChoice.sDefault 0 0).2.2 rfl⟩

/-- Claim C9, failing execution: after `peer.close` has closed `sendCh`,
the `p.sendCh <- state` case of `send`'s first `select` is ready — a send
on a closed Go channel proceeds by panicking — and the runtime may select
it, so `send` can panic rather than return.  The cache reads
`latestState` and `getErr` do return normally on the same closed peer. -/
theorem C9_send_after_close_crash :
    peer.send closedPeerInt msgSample SelChoice.sChan SelChoice.sDefault
      SelChoice.sDefault 0 0 = SendOutcome.crash ∧
    peer.latestState closedPeerInt = (StateMessage.zero Int, false) ∧
    peer.getErr closedPeerInt = some (GoErr.other 1) :=
  ⟨rfl, rfl, rfl⟩

/-- Claim C3: for every StateMessage (any PlayerState and any finite,
possibly empty, ordered bullet list), encoding it with the writer's
serializer and decoding it with the reader's decoder yields a message
field-for-field equal to the original, including the exact scalar values,
both booleans, and the bullet list's length and order. -/
theorem C3_wire_roundtrip {F : Type} (m : StateMessage F) :
    decodeStateMessage (encodeStateMessage m) = some m := by
  cases m with
  | mk p bs =>
    simp [encodeStateMessage, decodeStateMessage, jLookup,
          decodePlayer_encodePlayer, decodeBullets_encode]

/-- Claim C4: for every Manager with no bound Peer (host still awaiting a
client), `LatestState` returns the zero-value StateMessage paired with
`false`, and `Send` returns success (nil) and leaves the Manager's state
unchanged — under every schedule. -/
theorem C4_unbound_manager {F : Type} [Zero F] (s : Manager F)
    (msg : StateMessage F) (c1 c2 c3 : SelChoice) (d1 d2 : Nat)
    (h : s.peer = none) :
    Manager.LatestState (some s) = (StateMessage.zero F, false) ∧
    Manager.Send (some s) msg c1 c2 c3 d1 d2 = MgrSendOutcome.ret (some s) none := by
  constructor
  · simp [Manager.LatestState, h]
  · simp [Manager.Send, h]

/-- Witness for C4 at the concrete awaiting host Manager. -/
theorem C4_unbound_manager_witness :
    mgrAwaitingInt.peer = none ∧
    (Manager.LatestState (some mgrAwaitingInt) = (StateMessage.zero Int, false) ∧
     Manager.Send (some mgrAwaitingInt) msgSample SelChoice.sChan SelChoice.sDefault
       SelChoice.sDefault 0 0 = MgrSendOutcome.ret (some mgrAwaitingInt) none) :=
  ⟨rfl, C4_unbound_manager mgrAwaitingInt msgSample SelChoice.sChan SelChoice.sDefault
    SelChoice.sDefault 0 0 rfl⟩

/-- Claim C5: `Manager.Close` is idempotent: the teardown runs exactly
once across any number of calls (ghost counter `teardownRuns`), the one
reported error is the first non-benign one among the listener's and the
bound peer's close results (`net.ErrClosed` suppressed), and every call
after the first completed `Close` returns success (nil) and changes
nothing. -/
theorem C5_close_idempotent {F : Type} (s : Manager F)
    (h : s.closeOnceDone = false) :
    (Manager.Close (some s)).2 = firstNonBenign [listenerCloseErr s, peerConnErr s] ∧
    teardownRunsOf (Manager.Close (some s)).1 = s.teardownRuns + 1 ∧
    Manager.Close (Manager.Close (some s)).1 = ((Manager.Close (some s)).1, none) ∧
    teardownRunsOf (Manager.Close (Manager.Close (some s)).1).1
      = s.teardownRuns + 1 := by
  obtain ⟨t, ht1, ht2, ht3⟩ := close_state_after s h
  refine ⟨close_reported_error s h, ?_, ?_, ?_⟩
  · rw [ht1]
    simpa [teardownRunsOf] using ht3
  · rw [ht1, close_after_done t ht2]
  · rw [ht1, close_after_done t ht2]
    simpa [teardownRunsOf] using ht3

/-- Witness for C5 at a Manager holding a listener whose close reports the
benign `net.ErrClosed` and a peer whose connection close reports a real
fault: the fault is the one reported error, and the second `Close` is a
nil no-op. -/
theorem C5_close_idempotent_witness :
    mgrToCloseInt.closeOnceDone = false ∧
    ((Manager.Close (some mgrToCloseInt)).2
       = firstNonBenign [listenerCloseErr mgrToCloseInt, peerConnErr mgrToCloseInt] ∧
     teardownRunsOf (Manager.Close (some mgrToCloseInt)).1
       = mgrToCloseInt.teardownRuns + 1 ∧
     Manager.Close (Manager.Close (some mgrToCloseInt)).1
       = ((Manager.Close (some mgrToCloseInt)).1, none) ∧
     teardownRunsOf (Manager.Close (Manager.Close (some mgrToCloseInt)).1).1
       = mgrToCloseInt.teardownRuns + 1) :=
  ⟨rfl, C5_close_idempotent mgrToCloseInt rfl⟩

/-- Claim C6: for every Peer and every Manager, the sticky error is
write-once: over any sequence of recorded values, nil recordings are
ignored, a recorded fault is immutable, and `getErr` returns the first
fault ever recorded (or none). -/
theorem C6_sticky_error_write_once {F : Type} (p : peer F) (s : Manager F)
    (es : List (Option GoErr)) :
    peer.getErr (es.foldl peer.setErr p) = p.err.or (firstFault es) ∧
    Manager.getErr (es.foldl Manager.setErr s) = s.err.or (firstFault es) :=
  ⟨peer_foldl_setErr es p, manager_foldl_setErr es s⟩

/-- Claim C7: the accept task performs exactly one accept attempt (the
embedding of `acceptOnce` consumes exactly one `AcceptOutcome`), and an
accepted connection that arrives when a Peer is already bound or the
Manager is closed is closed immediately, leaving the Manager — its bound
Peer and sticky error included — unchanged. -/
theorem C7_single_bind {F : Type} [Zero F] (s : Manager F) (c : ConnModel)
    (L : ListenerModel) (hL : s.listener = some L)
    (h : s.closedCh = true ∨ s.peer ≠ none) :
    Manager.acceptOnce s (AcceptOutcome.acceptConn c) = (s, true) := by
  rcases h with h | h
  · simp [Manager.acceptOnce, hL, h]
  · rcases hp : s.peer with _ | p
    · exact absurd hp h
    · simp [Manager.acceptOnce, hL, hp]

/-- Witness for C7 at a Manager that already bound a peer. -/
theorem C7_single_bind_witness :
    mgrBoundInt.listener = some ⟨none⟩ ∧ mgrBoundInt.peer ≠ none ∧
    Manager.acceptOnce mgrBoundInt (AcceptOutcome.acceptConn ⟨none⟩) = (mgrBoundInt, true) :=
  ⟨rfl, by decide,
   C7_single_bind mgrBoundInt ⟨none⟩ ⟨none⟩ rfl (Or.inr (by decide))⟩

/-- Claim C8: in the inbound reader, a decode failure that is not a clean
stream end records that failure as the sticky error, a clean stream end
records the distinct `io.EOF` sentinel, both close the Peer, and the
recorded "ended" condition is distinguishable from a generic transport
fault. -/
theorem C8_readloop_error_recording {F : Type} (p : peer F) (e : GoErr)
    (hfresh : p.err = none) (hopen : p.closeOnceDone = false) :
    (peer.readStep p (DecodeOutcome.decodeErr GoErr.eofErr)).err = some GoErr.eofErr ∧
    (peer.readStep p (DecodeOutcome.decodeErr GoErr.eofErr)).closedCh = true ∧
    (peer.readStep p (DecodeOutcome.decodeErr e)).closedCh = true ∧
    (e ≠ GoErr.eofErr →
      (peer.readStep p (DecodeOutcome.decodeErr e)).err = some e ∧
      (peer.readStep p (DecodeOutcome.decodeErr e)).err ≠ some GoErr.eofErr) := by
  refine ⟨?_, ?_, ?_, ?_⟩
  · simp [peer.readStep, peer.setErr, peer.close, hfresh, hopen]
  · simp [peer.readStep, peer.setErr, peer.close, hfresh, hopen]
  · by_cases he : e = GoErr.eofErr <;>
      simp [peer.readStep, peer.setErr, peer.close, hfresh, hopen, he]
  · intro he
    constructor <;> simp [peer.readStep, peer.setErr, peer.close, hfresh, hopen, he]

/-- Witness for C8 at a fresh open peer and a generic transport fault. -/
theorem C8_readloop_error_recording_witness :
    openPeerInt.err = none ∧ openPeerInt.closeOnceDone = false ∧
    (GoErr.other 3 ≠ GoErr.eofErr) ∧
    ((peer.readStep openPeerInt (DecodeOutcome.decodeErr GoErr.eofErr)).err
       = some GoErr.eofErr ∧
     (peer.readStep openPeerInt (DecodeOutcome.decodeErr (GoErr.other 3))).err
       = some (GoErr.other 3)) := by
  have h := C8_readloop_error_recording openPeerInt (GoErr.other 3) rfl rfl
  exact ⟨rfl, rfl, by decide, h.1, (h.2.2.2 (by decide)).1⟩

/-- Claim C10: every public Manager method is safe on a nil receiver:
`Send` returns nil, `LatestState` returns the zero snapshot with `false`,
`Err` returns nil, and `Close` returns nil, all without fault. -/
theorem C10_nil_receiver_safe {F : Type} [Zero F] (msg : StateMessage F)
    (c1 c2 c3 : SelChoice) (d1 d2 : Nat) :
    Manager.Send (none : Option (Manager F)) msg c1 c2 c3 d1 d2
      = MgrSendOutcome.ret none none ∧
    Manager.LatestState (none : Option (Manager F)) = (StateMessage.zero F, false) ∧
    Manager.Err (none : Option (Manager F)) = none ∧
    Manager.Close (none : Option (Manager F)) = (none, none) :=
  ⟨rfl, rfl, rfl, rfl⟩

end Platformer
